import Mathlib

/-!
Shallow embedding of the authboss remember-me module and per-request
identity cache (src/remember/remember.go, src/context.go).

Go byte-strings are modelled as `List Nat` (each element a byte value);
SHA-512 is an abstract function parameter `sha`; the storage collaborator
is an abstract record of operations, with a spec-modelled in-memory
instance used for end-to-end token-rotation statements.  Side effects on
the response writer (cookie writes/deletes, session writes) and calls to
the storage collaborator are recorded as an explicit event trace.
-/

namespace Authboss

/-- A Go byte-string: a list of byte values (each `< 256` where relevant). -/
abbrev GoStr := List Nat

/-- Errors observable in the embedded code.  `tokenNotFound` models the
distinguished `authboss.ErrTokenNotFound` sentinel; `wrap` models
`errors.Wrap` from github.com/pkg/errors, keeping its message and cause. -/
inductive Err where
  | tokenNotFound : Err
  | userNotFound : Err
  | storage : Nat → Err
  | randFail : Nat → Err
  | wrap : String → Err → Err
deriving DecidableEq

/-- The root cause of an error, as `errors.Cause` would report it. -/
def Err.cause : Err → Err
  | .wrap _ e => e.cause
  | e => e

/-- bytes.IndexByte: index of the first occurrence of byte `b`, if any. -/
def indexOfByte (b : Nat) : List Nat → Option Nat
  | [] => none
  | a :: rest => if a = b then some 0 else (indexOfByte b rest).map (· + 1)

/-! ### base64 (encoding/base64: StdEncoding and URLEncoding) -/

/-- The padding byte `=` (ASCII 61). -/
def padByte : Nat := 61

/-- The byte for the character at index `i` of an alphabet. -/
def encChar (alpha : List Nat) (i : Nat) : Nat := alpha.getD i 0

/-- The index of byte `b` in an alphabet, if present. -/
def decChar (alpha : List Nat) (b : Nat) : Option Nat := indexOfByte b alpha

/-- The standard base64 alphabet `A-Z a-z 0-9 + /` as ASCII bytes. -/
def stdAlphabet : GoStr :=
  (List.range 26).map (fun i => 65 + i) ++ (List.range 26).map (fun i => 97 + i) ++
    (List.range 10).map (fun i => 48 + i) ++ [43, 47]

/-- The URL-safe base64 alphabet `A-Z a-z 0-9 - _` as ASCII bytes. -/
def urlAlphabet : GoStr :=
  (List.range 26).map (fun i => 65 + i) ++ (List.range 26).map (fun i => 97 + i) ++
    (List.range 10).map (fun i => 48 + i) ++ [45, 95]

/-- base64 encoding of a byte list over a 64-byte alphabet, with `=` padding
(the algorithm of Go's `base64.Encoding.EncodeToString`). -/
def base64Encode (alpha : List Nat) : List Nat → List Nat
  | b1 :: b2 :: b3 :: rest =>
    encChar alpha (b1 / 4) :: encChar alpha (b1 % 4 * 16 + b2 / 16) ::
      encChar alpha (b2 % 16 * 4 + b3 / 64) :: encChar alpha (b3 % 64) ::
      base64Encode alpha rest
  | [b1, b2] =>
    [encChar alpha (b1 / 4), encChar alpha (b1 % 4 * 16 + b2 / 16),
      encChar alpha (b2 % 16 * 4), padByte]
  | [b1] => [encChar alpha (b1 / 4), encChar alpha (b1 % 4 * 16), padByte, padByte]
  | [] => []

/-- base64 decoding over a 64-byte alphabet (the algorithm of Go's
`base64.Encoding.DecodeString`): input length must be a multiple of four,
`=` padding may appear only at the very end, invalid bytes fail. -/
def base64Decode (alpha : List Nat) : List Nat → Option (List Nat)
  | [] => some []
  | a :: b :: c :: d :: rest =>
    if c = padByte ∧ d = padByte ∧ rest = [] then
      match decChar alpha a, decChar alpha b with
      | some va, some vb => some [va * 4 + vb / 16]
      | _, _ => none
    else if d = padByte ∧ rest = [] then
      match decChar alpha a, decChar alpha b, decChar alpha c with
      | some va, some vb, some vc => some [va * 4 + vb / 16, vb % 16 * 16 + vc / 4]
      | _, _, _ => none
    else
      match decChar alpha a, decChar alpha b, decChar alpha c, decChar alpha d,
          base64Decode alpha rest with
      | some va, some vb, some vc, some vd, some bytes =>
        some ((va * 4 + vb / 16) :: (vb % 16 * 16 + vc / 4) :: (vc % 4 * 64 + vd) :: bytes)
      | _, _, _, _, _ => none
  | _ => none

/-- An alphabet fit for base64: decoding inverts encoding on all 64 indices,
and no alphabet byte is the padding byte. -/
def GoodAlpha (alpha : List Nat) : Prop :=
  (∀ i, i < 64 → decChar alpha (encChar alpha i) = some i) ∧
    ∀ i, i < 64 → encChar alpha i ≠ padByte

/-! ### The remember module (src/remember/remember.go) -/

/-- Size of the random nonce in a remember token (`nNonceSize`). -/
def nNonceSize : Nat := 32

/-- The `;` separator byte between pid and nonce in a raw token. -/
def sepByte : Nat := 59

/-- The name of the remember cookie (`authboss.CookieRemember`, the constant
itself lives in the authboss package outside src/). -/
def CookieRemember : GoStr := [114, 109]

/-- Modelled from the spec: the session key under which the resolved
principal id is stored (`authboss.SessionKey`; the constant itself lives in
the authboss package outside src/). -/
def SessionKey : GoStr := [95, 112, 105, 100]

/-- Modelled from the spec: the session key for the half-authenticated flag
(`authboss.SessionHalfAuthKey`; the constant itself lives in the authboss
package outside src/). -/
def SessionHalfAuthKey : GoStr := [104, 97, 108, 102, 97, 117, 116, 104]

/-- The string-valued boolean "true" written to the half-auth session key. -/
def trueStr : GoStr := [116, 114, 117, 101]

/-- Observable side effects: client-state writes and calls to the storage
collaborator, in program order. -/
inductive Event where
  | delCookie : GoStr → Event
  | putCookie : GoStr → GoStr → Event
  | putSession : GoStr → GoStr → Event
  | useToken : GoStr → GoStr → Event
  | addToken : GoStr → GoStr → Event
  | delTokens : GoStr → Event
deriving DecidableEq

/-- The storage collaborator's remember capabilities
(authboss.RememberingServerStorer): each operation transforms an abstract
store state `σ` and may fail. -/
structure RememberingServerStorer (σ : Type) where
  addRememberToken : GoStr → GoStr → σ → σ × Option Err
  useRememberToken : GoStr → GoStr → σ → σ × Option Err
  delRememberTokens : GoStr → σ → σ × Option Err

/-- Result of `Authenticate`: the emitted event trace, the final store
state, and the returned error. -/
structure AuthResult (σ : Type) where
  events : List Event
  store : σ
  err : Option Err
deriving DecidableEq

/-- GenerateToken (remember.go:210-221): builds
`rawToken = pid ++ ";" ++ nonce`, hashes it with SHA-512, and returns
`(hash, token) = (base64_std(sha rawToken), base64_url(rawToken))`.  The
random source is modelled as an `Except` supplying the nonce bytes; its
failure is wrapped exactly as in the source. -/
def GenerateToken (sha : GoStr → GoStr) (pid : GoStr) (nonce : Except Err GoStr) :
    Except Err (GoStr × GoStr) :=
  match nonce with
  | .error e => .error (.wrap "failed to create remember me nonce" e)
  | .ok n =>
    let rawToken := pid ++ sepByte :: n
    .ok (base64Encode stdAlphabet (sha rawToken), base64Encode urlAlphabet rawToken)

/-- Authenticate (remember.go:137-188): read the remember cookie, decode it,
split at the first `;`, hash the entire decoded bytes, consume the token in
storage, and on success rotate the token and mark the session
half-authenticated. -/
def Authenticate {σ : Type} (sha : GoStr → GoStr) (st : RememberingServerStorer σ)
    (cookie : Option GoStr) (nonce : Except Err GoStr) (store : σ) : AuthResult σ :=
  match cookie with
  | none => ⟨[], store, none⟩
  | some ck =>
    match base64Decode urlAlphabet ck with
    | none => ⟨[.delCookie CookieRemember], store, none⟩
    | some rawToken =>
      match indexOfByte sepByte rawToken with
      | none => ⟨[.delCookie CookieRemember], store, none⟩
      | some index =>
        let pid := rawToken.take index
        let hash := base64Encode stdAlphabet (sha rawToken)
        let ur := st.useRememberToken pid hash store
        match ur.2 with
        | some e =>
          if e = Err.tokenNotFound then
            ⟨[.useToken pid hash, .delCookie CookieRemember], ur.1, none⟩
          else
            ⟨[.useToken pid hash], ur.1, some e⟩
        | none =>
          match GenerateToken sha pid nonce with
          | .error e => ⟨[.useToken pid hash], ur.1, some e⟩
          | .ok ht =>
            let ar := st.addRememberToken pid ht.1 ur.1
            match ar.2 with
            | some e =>
              ⟨[.useToken pid hash, .addToken pid ht.1], ar.1,
                some (.wrap "failed to save me token" e)⟩
            | none =>
              ⟨[.useToken pid hash, .addToken pid ht.1,
                  .putSession SessionKey pid, .putSession SessionHalfAuthKey trueStr,
                  .delCookie CookieRemember, .putCookie CookieRemember ht.2],
                ar.1, none⟩

/-- Result of one pass through the remember middleware for a request. -/
structure MWResult (σ : Type) where
  authCalled : Bool
  events : List Event
  store : σ
  loggedErr : Option Err
  nextCalled : Bool

/-- Middleware (remember.go:116-129): run `Authenticate` only when neither a
cached pid nor a cached user is in the request context; log (never return)
its error; always invoke the next handler. -/
def Middleware {σ U : Type} (sha : GoStr → GoStr) (st : RememberingServerStorer σ)
    (cookie : Option GoStr) (nonce : Except Err GoStr)
    (ctxPid : Option GoStr) (ctxUser : Option U) (store : σ) : MWResult σ :=
  if ctxPid.isNone && ctxUser.isNone then
    let r := Authenticate sha st cookie nonce store
    ⟨true, r.events, r.store, r.err, true⟩
  else
    ⟨false, [], store, none, true⟩

/-! ### Identity cache (src/context.go) -/

/-- The ambient per-request context values under `CTXKeyPID` and
`CTXKeyUser`. -/
structure ReqCtx (U : Type) where
  pid : Option GoStr
  user : Option U

/-- CurrentUserID (context.go:34-41): the context pid if cached, otherwise
the session value under `SessionKey` (absent reads as the empty string). -/
def CurrentUserID {U : Type} (ctx : ReqCtx U) (sess : Option GoStr) : GoStr :=
  match ctx.pid with
  | some p => p
  | none => sess.getD []

/-- LoadCurrentUserID (context.go:93-111): like `CurrentUserID`, but a
non-empty pid is attached to the context, which is rebound and returned. -/
def LoadCurrentUserID {U : Type} (ctx : ReqCtx U) (sess : Option GoStr) :
    GoStr × ReqCtx U :=
  match ctx.pid with
  | some p => (p, ctx)
  | none =>
    let pid := CurrentUserID ctx sess
    if pid = [] then ([], ctx)
    else (pid, { ctx with pid := some pid })

/-- Result of `LoadCurrentUser`: the resolved user, the rebound request
context, the number of storage loads performed, and the returned error. -/
structure LoadResult (U : Type) where
  user : Option U
  ctx : ReqCtx U
  loads : Nat
  err : Option Err

/-- LoadCurrentUser (context.go:129-152): a cached user short-circuits;
otherwise the pid is resolved and attached, the user is loaded from storage
(`load` is `Storage.Server.Load`) and attached to the rebound context. -/
def LoadCurrentUser {U : Type} (load : GoStr → Except Err U) (ctx : ReqCtx U)
    (sess : Option GoStr) : LoadResult U :=
  match ctx.user with
  | some u => ⟨some u, ctx, 0, none⟩
  | none =>
    let pc := LoadCurrentUserID ctx sess
    if pc.1 = [] then ⟨none, pc.2, 0, none⟩
    else
      match load pc.1 with
      | .error e => ⟨none, pc.2, 1, some e⟩
      | .ok u => ⟨some u, { pc.2 with user := some u }, 1, none⟩

/-- CurrentUser (context.go:59-72): a cached user short-circuits; an empty
resolved pid is `ErrUserNotFound`; otherwise the user is loaded from
storage. -/
def CurrentUser {U : Type} (load : GoStr → Except Err U) (ctx : ReqCtx U)
    (sess : Option GoStr) : Except Err U :=
  match ctx.user with
  | some u => .ok u
  | none =>
    let pid := CurrentUserID ctx sess
    if pid = [] then .error .userNotFound
    else load pid

/-! ### Event hooks of the remember module -/

/-- Result of an after-event hook: event trace, final store state, the
`handled` flag, and the returned error. -/
structure HookResult (σ : Type) where
  events : List Event
  store : σ
  handled : Bool
  err : Option Err

/-- AfterPasswordReset (remember.go:192-207): resolve the current user,
delete the remember cookie, delete all remember tokens for the user's pid,
return `handled = false` with the deletion error. -/
def AfterPasswordReset {σ U : Type} (getPID : U → GoStr)
    (load : GoStr → Except Err U) (st : RememberingServerStorer σ)
    (ctx : ReqCtx U) (sess : Option GoStr) (store : σ) : HookResult σ :=
  match CurrentUser load ctx sess with
  | .error e => ⟨[], store, false, some e⟩
  | .ok user =>
    let pid := getPID user
    let dr := st.delRememberTokens pid store
    ⟨[.delCookie CookieRemember, .delTokens pid], dr.1, false, dr.2⟩

/-- A value stored under the remember-me context key `CTXKeyRM`
(`interface\x7b\x7d` in Go): a boolean, a string, or some other value. -/
inductive CtxVal where
  | boolVal : Bool → CtxVal
  | strVal : GoStr → CtxVal
  | otherVal : Nat → CtxVal
deriving DecidableEq

/-- The Go guard `rm, ok := rmIntf.(bool); ok && !rm`: true exactly when the
value is the boolean `false`. -/
def isFalseBool : CtxVal → Bool
  | .boolVal false => true
  | _ => false

/-- Result of `RememberAfterAuth`; `panicked` models `CurrentUserP`
panicking when no user can be resolved. -/
inductive RAAResult (σ : Type) where
  | panicked : RAAResult σ
  | ret : List Event → σ → Bool → Option Err → RAAResult σ

/-- The `handled` flag of a hook outcome (`false` for a panic, which never
returns). -/
def RAAResult.handledOf {σ : Type} : RAAResult σ → Bool
  | .panicked => false
  | .ret _ _ h _ => h

/-- RememberAfterAuth (remember.go:46-68): no-op unless the `CTXKeyRM`
context value is present and is not the boolean `false`; otherwise resolve
the current user (panicking on failure), generate a token, persist its hash
and write the cookie. -/
def RememberAfterAuth {σ U : Type} (sha : GoStr → GoStr) (getPID : U → GoStr)
    (load : GoStr → Except Err U) (st : RememberingServerStorer σ)
    (ctx : ReqCtx U) (sess : Option GoStr) (rmVal : Option CtxVal)
    (nonce : Except Err GoStr) (store : σ) : RAAResult σ :=
  match rmVal with
  | none => .ret [] store false none
  | some v =>
    if isFalseBool v then .ret [] store false none
    else
      match CurrentUser load ctx sess with
      | .error _ => .panicked
      | .ok user =>
        match GenerateToken sha (getPID user) nonce with
        | .error e => .ret [] store false (some e)
        | .ok ht =>
          let ar := st.addRememberToken (getPID user) ht.1 store
          match ar.2 with
          | some e => .ret [.addToken (getPID user) ht.1] ar.1 false (some e)
          | none =>
            .ret [.addToken (getPID user) ht.1, .putCookie CookieRemember ht.2]
              ar.1 false none

/-! ### A spec-modelled in-memory storage collaborator -/

/-- Modelled from the spec: the state of the storage collaborator's
remember-token table, a list of `(pid, hash)` pairs (the repository defines
only the `RememberingServerStorer` interface; its implementations are
host-supplied).  `use_remember_token` atomically consumes one matching
pair or reports not-found; `add_remember_token` appends;
`delete_remember_tokens` drops every pair of the pid. -/
abbrev MemStore := List (GoStr × GoStr)

/-- Modelled from the spec: the in-memory storage collaborator over
`MemStore`. -/
def memStorer : RememberingServerStorer MemStore where
  addRememberToken := fun pid hash s => (s ++ [(pid, hash)], none)
  useRememberToken := fun pid hash s =>
    if (pid, hash) ∈ s then (s.erase (pid, hash), none)
    else (s, some .tokenNotFound)
  delRememberTokens := fun pid s => (s.filter (fun t => t.1 ≠ pid), none)

/-! ### base64 round-trip -/

theorem goodAlpha_std : GoodAlpha stdAlphabet :=
  ⟨by decide, by decide⟩

theorem goodAlpha_url : GoodAlpha urlAlphabet :=
  ⟨by decide, by decide⟩

/-- Decoding inverts encoding on byte lists, for any good alphabet. -/
theorem base64Decode_encode (alpha : List Nat) (hg : GoodAlpha alpha) :
    ∀ bs : List Nat, (∀ b ∈ bs, b < 256) →
      base64Decode alpha (base64Encode alpha bs) = some bs
  | [] => fun _ => rfl
  | [b1] => fun h => by
    have hb1 : b1 < 256 := h b1 (by simp)
    have d1 := hg.1 (b1 / 4) (by omega)
    have d2 := hg.1 (b1 % 4 * 16) (by omega)
    simp [base64Encode, base64Decode, d1, d2]
    omega
  | [b1, b2] => fun h => by
    have hb1 : b1 < 256 := h b1 (by simp)
    have hb2 : b2 < 256 := h b2 (by simp)
    have n3 : encChar alpha (b2 % 16 * 4) ≠ padByte := hg.2 _ (by omega)
    have d1 := hg.1 (b1 / 4) (by omega)
    have d2 := hg.1 (b1 % 4 * 16 + b2 / 16) (by omega)
    have d3 := hg.1 (b2 % 16 * 4) (by omega)
    simp [base64Encode, base64Decode, n3, d1, d2, d3]
    omega
  | b1 :: b2 :: b3 :: rest => fun h => by
    have hb1 : b1 < 256 := h b1 (by simp)
    have hb2 : b2 < 256 := h b2 (by simp)
    have hb3 : b3 < 256 := h b3 (by simp)
    have ih := base64Decode_encode alpha hg rest fun b hb => h b (by simp [hb])
    have n3 : encChar alpha (b2 % 16 * 4 + b3 / 64) ≠ padByte := hg.2 _ (by omega)
    have n4 : encChar alpha (b3 % 64) ≠ padByte := hg.2 _ (by omega)
    have d1 := hg.1 (b1 / 4) (by omega)
    have d2 := hg.1 (b1 % 4 * 16 + b2 / 16) (by omega)
    have d3 := hg.1 (b2 % 16 * 4 + b3 / 64) (by omega)
    have d4 := hg.1 (b3 % 64) (by omega)
    simp [base64Encode, base64Decode, n3, n4, d1, d2, d3, d4, ih]
    omega

/-- Encoding over a good alphabet is injective on byte lists. -/
theorem base64Encode_inj (alpha : List Nat) (hg : GoodAlpha alpha)
    (a b : List Nat) (ha : ∀ x ∈ a, x < 256) (hb : ∀ x ∈ b, x < 256)
    (heq : base64Encode alpha a = base64Encode alpha b) : a = b := by
  have h1 := base64Decode_encode alpha hg a ha
  have h2 := base64Decode_encode alpha hg b hb
  rw [heq, h2] at h1
  exact (Option.some_inj.mp h1).symm

/-! ### Branch lemmas for `Authenticate` -/

section AuthBranches

variable {σ : Type} (sha : GoStr → GoStr) (st : RememberingServerStorer σ)
variable (nonce : Except Err GoStr) (store : σ)

theorem Authenticate_noCookie :
    Authenticate sha st none nonce store = ⟨[], store, none⟩ := rfl

theorem Authenticate_badBase64 (ck : GoStr)
    (hdec : base64Decode urlAlphabet ck = none) :
    Authenticate sha st (some ck) nonce store =
      ⟨[.delCookie CookieRemember], store, none⟩ := by
  simp [Authenticate, hdec]

theorem Authenticate_noSep (ck raw : GoStr)
    (hdec : base64Decode urlAlphabet ck = some raw)
    (hidx : indexOfByte sepByte raw = none) :
    Authenticate sha st (some ck) nonce store =
      ⟨[.delCookie CookieRemember], store, none⟩ := by
  simp [Authenticate, hdec, hidx]

theorem Authenticate_notFound (ck raw : GoStr) (idx : Nat) (s1 : σ)
    (hdec : base64Decode urlAlphabet ck = some raw)
    (hidx : indexOfByte sepByte raw = some idx)
    (huse : st.useRememberToken (raw.take idx) (base64Encode stdAlphabet (sha raw))
      store = (s1, some Err.tokenNotFound)) :
    Authenticate sha st (some ck) nonce store =
      ⟨[.useToken (raw.take idx) (base64Encode stdAlphabet (sha raw)),
        .delCookie CookieRemember], s1, none⟩ := by
  simp [Authenticate, hdec, hidx, huse]

theorem Authenticate_useErr (ck raw : GoStr) (idx : Nat) (s1 : σ) (e : Err)
    (hdec : base64Decode urlAlphabet ck = some raw)
    (hidx : indexOfByte sepByte raw = some idx)
    (huse : st.useRememberToken (raw.take idx) (base64Encode stdAlphabet (sha raw))
      store = (s1, some e))
    (hne : e ≠ Err.tokenNotFound) :
    Authenticate sha st (some ck) nonce store =
      ⟨[.useToken (raw.take idx) (base64Encode stdAlphabet (sha raw))], s1, some e⟩ := by
  simp [Authenticate, hdec, hidx, huse, hne]

theorem Authenticate_genErr (ck raw : GoStr) (idx : Nat) (s1 : σ) (e : Err)
    (hdec : base64Decode urlAlphabet ck = some raw)
    (hidx : indexOfByte sepByte raw = some idx)
    (huse : st.useRememberToken (raw.take idx) (base64Encode stdAlphabet (sha raw))
      store = (s1, none))
    (hnonce : nonce = .error e) :
    Authenticate sha st (some ck) nonce store =
      ⟨[.useToken (raw.take idx) (base64Encode stdAlphabet (sha raw))], s1,
        some (.wrap "failed to create remember me nonce" e)⟩ := by
  simp [Authenticate, hdec, hidx, huse, hnonce, GenerateToken]

theorem Authenticate_addErr (ck raw : GoStr) (idx : Nat) (s1 s2 : σ) (e : Err)
    (n : GoStr)
    (hdec : base64Decode urlAlphabet ck = some raw)
    (hidx : indexOfByte sepByte raw = some idx)
    (huse : st.useRememberToken (raw.take idx) (base64Encode stdAlphabet (sha raw))
      store = (s1, none))
    (hnonce : nonce = .ok n)
    (hadd : st.addRememberToken (raw.take idx)
      (base64Encode stdAlphabet (sha (raw.take idx ++ sepByte :: n))) s1 =
        (s2, some e)) :
    Authenticate sha st (some ck) nonce store =
      ⟨[.useToken (raw.take idx) (base64Encode stdAlphabet (sha raw)),
        .addToken (raw.take idx)
          (base64Encode stdAlphabet (sha (raw.take idx ++ sepByte :: n)))],
        s2, some (.wrap "failed to save me token" e)⟩ := by
  simp [Authenticate, hdec, hidx, huse, hnonce, GenerateToken, hadd]

theorem Authenticate_ok (ck raw : GoStr) (idx : Nat) (s1 s2 : σ) (n : GoStr)
    (hdec : base64Decode urlAlphabet ck = some raw)
    (hidx : indexOfByte sepByte raw = some idx)
    (huse : st.useRememberToken (raw.take idx) (base64Encode stdAlphabet (sha raw))
      store = (s1, none))
    (hnonce : nonce = .ok n)
    (hadd : st.addRememberToken (raw.take idx)
      (base64Encode stdAlphabet (sha (raw.take idx ++ sepByte :: n))) s1 =
        (s2, none)) :
    Authenticate sha st (some ck) nonce store =
      ⟨[.useToken (raw.take idx) (base64Encode stdAlphabet (sha raw)),
        .addToken (raw.take idx)
          (base64Encode stdAlphabet (sha (raw.take idx ++ sepByte :: n))),
        .putSession SessionKey (raw.take idx),
        .putSession SessionHalfAuthKey trueStr,
        .delCookie CookieRemember,
        .putCookie CookieRemember
          (base64Encode urlAlphabet (raw.take idx ++ sepByte :: n))],
        s2, none⟩ := by
  simp [Authenticate, hdec, hidx, huse, hnonce, GenerateToken, hadd]

end AuthBranches

/-! ### Separator-index lemmas -/

theorem indexOfByte_of_not_mem (pid n : GoStr) (h : sepByte ∉ pid) :
    indexOfByte sepByte (pid ++ sepByte :: n) = some pid.length := by
  induction pid with
  | nil => simp [indexOfByte]
  | cons a rest ih =>
    have ha : a ≠ sepByte := fun heq => h (by simp [heq])
    have hrest : sepByte ∉ rest := fun hm => h (by simp [hm])
    simp [indexOfByte, ha, ih hrest]

theorem indexOfByte_of_mem (pid n : GoStr) (h : sepByte ∈ pid) :
    ∃ k, indexOfByte sepByte (pid ++ sepByte :: n) = some k ∧ k < pid.length := by
  induction pid with
  | nil => simp at h
  | cons a rest ih =>
    by_cases ha : a = sepByte
    · exact ⟨0, by simp [indexOfByte, ha], by simp⟩
    · have hm : sepByte ∈ rest := by
        rcases List.mem_cons.mp h with h1 | h1
        · exact absurd h1.symm ha
        · exact h1
      obtain ⟨k, h1, h2⟩ := ih hm
      refine ⟨k + 1, by simp [indexOfByte, ha, h1], by simp; omega⟩

/-! ### Claim theorems -/

/-- Claim C2 — `GenerateToken` returns
`(hash, token) = (base64_std(SHA-512(pid;nonce)), base64_url(pid;nonce))`,
URL-safe-base64-decoding the token recovers exactly the raw bytes, and
recomputing the standard-base64 SHA-512 hash over the entire decoded
bytes — exactly what `Authenticate` does — reproduces the stored hash. -/
theorem generateToken_roundtrip (sha : GoStr → GoStr) (pid n : GoStr)
    (hpid : ∀ b ∈ pid, b < 256) (hn : ∀ b ∈ n, b < 256)
    (_hlen : n.length = nNonceSize) :
    GenerateToken sha pid (.ok n) =
      .ok (base64Encode stdAlphabet (sha (pid ++ sepByte :: n)),
        base64Encode urlAlphabet (pid ++ sepByte :: n)) ∧
    base64Decode urlAlphabet (base64Encode urlAlphabet (pid ++ sepByte :: n)) =
      some (pid ++ sepByte :: n) ∧
    ∀ raw, base64Decode urlAlphabet (base64Encode urlAlphabet (pid ++ sepByte :: n)) =
        some raw →
      base64Encode stdAlphabet (sha raw) =
        base64Encode stdAlphabet (sha (pid ++ sepByte :: n)) := by
  have hvalid : ∀ b ∈ pid ++ sepByte :: n, b < 256 := by
    intro b hb
    rcases List.mem_append.mp hb with h1 | h1
    · exact hpid b h1
    · rcases List.mem_cons.mp h1 with h2 | h2
      · simp [h2, sepByte]
      · exact hn b h2
  have hdec := base64Decode_encode urlAlphabet goodAlpha_url _ hvalid
  refine ⟨rfl, hdec, fun raw hr => ?_⟩
  rw [hdec] at hr
  rw [Option.some_inj.mp hr]

/-- Claim C2 witness: the spec's concrete scenario, pid `"u42"` with a
32-zero-byte nonce. -/
theorem generateToken_roundtrip_witness :
    base64Decode urlAlphabet
        (base64Encode urlAlphabet ([117, 52, 50] ++ sepByte :: List.replicate 32 0)) =
      some ([117, 52, 50] ++ sepByte :: List.replicate 32 0) :=
  (generateToken_roundtrip (fun l => l) [117, 52, 50] (List.replicate 32 0)
    (by decide) (by decide) (by decide)).2.1

/-- Claim C9 — the pid `Authenticate` extracts from a token produced by
`GenerateToken` is the decoded bytes up to the first `;`: when the issuing
pid contains no `;` byte it is recovered exactly, and the consume call
(the `useToken` event) carries it; when the issuing pid does contain a `;`
byte the extracted pid is a proper prefix of the issuing pid, so the
consume call is made under a different pid. -/
theorem authenticate_pid_extraction (sha : GoStr → GoStr) (pid n : GoStr)
    (hpid : ∀ b ∈ pid, b < 256) (hn : ∀ b ∈ n, b < 256)
    (nonce : Except Err GoStr) :
    (sepByte ∉ pid →
      Authenticate sha memStorer
          (some (base64Encode urlAlphabet (pid ++ sepByte :: n))) nonce [] =
        ⟨[.useToken pid (base64Encode stdAlphabet (sha (pid ++ sepByte :: n))),
          .delCookie CookieRemember], [], none⟩) ∧
    (sepByte ∈ pid → ∃ k, k < pid.length ∧
      (pid ++ sepByte :: n).take k = pid.take k ∧ pid.take k ≠ pid ∧
      Authenticate sha memStorer
          (some (base64Encode urlAlphabet (pid ++ sepByte :: n))) nonce [] =
        ⟨[.useToken (pid.take k)
            (base64Encode stdAlphabet (sha (pid ++ sepByte :: n))),
          .delCookie CookieRemember], [], none⟩) := by
  have hvalid : ∀ b ∈ pid ++ sepByte :: n, b < 256 := by
    intro b hb
    rcases List.mem_append.mp hb with h1 | h1
    · exact hpid b h1
    · rcases List.mem_cons.mp h1 with h2 | h2
      · simp [h2, sepByte]
      · exact hn b h2
  have hdec := base64Decode_encode urlAlphabet goodAlpha_url _ hvalid
  constructor
  · intro hno
    have hidx := indexOfByte_of_not_mem pid n hno
    have huse : memStorer.useRememberToken
        ((pid ++ sepByte :: n).take pid.length)
        (base64Encode stdAlphabet (sha (pid ++ sepByte :: n))) [] =
        ([], some Err.tokenNotFound) := by
      simp [memStorer]
    have := Authenticate_notFound sha memStorer nonce [] _ _ _ _ hdec hidx huse
    rwa [List.take_left] at this
  · intro hyes
    obtain ⟨k, hk, hklt⟩ := indexOfByte_of_mem pid n hyes
    have htake : (pid ++ sepByte :: n).take k = pid.take k :=
      List.take_append_of_le_length (Nat.le_of_lt hklt)
    have hne : pid.take k ≠ pid := by
      intro heq
      have := congrArg List.length heq
      simp [List.length_take] at this
      omega
    have huse : memStorer.useRememberToken ((pid ++ sepByte :: n).take k)
        (base64Encode stdAlphabet (sha (pid ++ sepByte :: n))) [] =
        ([], some Err.tokenNotFound) := by
      simp [memStorer]
    have := Authenticate_notFound sha memStorer nonce [] _ _ _ _ hdec hk huse
    rw [htake] at this
    exact ⟨k, hklt, htake, hne, this⟩

/-- Claim C9 witness: issuing pid `"u42"` (no `;`) is recovered exactly;
issuing pid `"a;b"` is truncated to the proper prefix `"a"`. -/
theorem authenticate_pid_extraction_witness :
    (sepByte ∉ ([117, 52, 50] : GoStr) →
      Authenticate (fun l => l) memStorer
          (some (base64Encode urlAlphabet ([117, 52, 50] ++ sepByte :: [7]))) (.ok []) [] =
        ⟨[.useToken [117, 52, 50]
            (base64Encode stdAlphabet ((fun l : GoStr => l) ([117, 52, 50] ++ sepByte :: [7]))),
          .delCookie CookieRemember], [], none⟩) ∧
    (sepByte ∈ ([97, 59, 98] : GoStr) → ∃ k, k < ([97, 59, 98] : GoStr).length ∧
      (([97, 59, 98] : GoStr) ++ sepByte :: [7]).take k = ([97, 59, 98] : GoStr).take k ∧
      ([97, 59, 98] : GoStr).take k ≠ [97, 59, 98] ∧
      Authenticate (fun l => l) memStorer
          (some (base64Encode urlAlphabet ([97, 59, 98] ++ sepByte :: [7]))) (.ok []) [] =
        ⟨[.useToken (([97, 59, 98] : GoStr).take k)
            (base64Encode stdAlphabet ((fun l : GoStr => l) ([97, 59, 98] ++ sepByte :: [7]))),
          .delCookie CookieRemember], [], none⟩) :=
  ⟨(authenticate_pid_extraction (fun l => l) [117, 52, 50] [7]
      (by decide) (by decide) (.ok [])).1,
    (authenticate_pid_extraction (fun l => l) [97, 59, 98] [7]
      (by decide) (by decide) (.ok [])).2⟩

/-- Claim C3 — fail-open malformed-input handling of `Authenticate`: no
cookie is a pure no-op returning nil (no cookie deletion, no storage call);
an undecodable cookie, a decoded token without `;`, and a token the storage
collaborator reports as not found each return a nil error and delete the
remember cookie. -/
theorem authenticate_fail_open {σ : Type} (sha : GoStr → GoStr)
    (st : RememberingServerStorer σ) (nonce : Except Err GoStr) (store : σ) :
    (Authenticate sha st none nonce store = ⟨[], store, none⟩) ∧
    (∀ ck, base64Decode urlAlphabet ck = none →
      Authenticate sha st (some ck) nonce store =
        ⟨[.delCookie CookieRemember], store, none⟩) ∧
    (∀ ck raw, base64Decode urlAlphabet ck = some raw →
      indexOfByte sepByte raw = none →
      Authenticate sha st (some ck) nonce store =
        ⟨[.delCookie CookieRemember], store, none⟩) ∧
    (∀ ck raw idx s1, base64Decode urlAlphabet ck = some raw →
      indexOfByte sepByte raw = some idx →
      st.useRememberToken (raw.take idx) (base64Encode stdAlphabet (sha raw)) store =
        (s1, some Err.tokenNotFound) →
      Authenticate sha st (some ck) nonce store =
        ⟨[.useToken (raw.take idx) (base64Encode stdAlphabet (sha raw)),
          .delCookie CookieRemember], s1, none⟩) := by
  refine ⟨Authenticate_noCookie sha st nonce store, ?_, ?_, ?_⟩
  · intro ck hdec
    exact Authenticate_badBase64 sha st nonce store ck hdec
  · intro ck raw hdec hidx
    exact Authenticate_noSep sha st nonce store ck raw hdec hidx
  · intro ck raw idx s1 hdec hidx huse
    exact Authenticate_notFound sha st nonce store ck raw idx s1 hdec hidx huse

/-- Claim C3 witness: a missing cookie, the non-base64 cookie `[0]`, the
base64 of `"A"` (no separator), and a well-formed-but-unknown token. -/
theorem authenticate_fail_open_witness :
    (Authenticate (fun l => l) memStorer none (.ok []) [] = ⟨[], [], none⟩) ∧
    (Authenticate (fun l => l) memStorer (some [0]) (.ok []) [] =
      ⟨[.delCookie CookieRemember], [], none⟩) ∧
    (Authenticate (fun l => l) memStorer (some (base64Encode urlAlphabet [65])) (.ok []) [] =
      ⟨[.delCookie CookieRemember], [], none⟩) ∧
    (Authenticate (fun l => l) memStorer (some (base64Encode urlAlphabet [65, 59])) (.ok []) [] =
      ⟨[.useToken [65] (base64Encode stdAlphabet ((fun l : GoStr => l) [65, 59])),
        .delCookie CookieRemember], [], none⟩) := by
  have h := authenticate_fail_open (σ := MemStore) (fun l => l) memStorer (.ok []) []
  refine ⟨h.1, h.2.1 [0] (by decide), h.2.2.1 (base64Encode urlAlphabet [65]) [65] (by decide) (by decide), ?_⟩
  have h4 := h.2.2.2 (base64Encode urlAlphabet [65, 59]) [65, 59] 1 []
    (by decide) (by decide) (by decide)
  simpa using h4

/-- No session entry and no cookie write occurs in a trace: identity was
not established and no new remember cookie was set. -/
def NoIdentityEstablished (evs : List Event) : Prop :=
  (∀ k v, Event.putSession k v ∉ evs) ∧ ∀ nm v, Event.putCookie nm v ∉ evs

/-- A storage collaborator whose every operation fails with `e` (used to
exercise infrastructure-failure paths). -/
def failStorer (e : Err) : RememberingServerStorer Nat where
  addRememberToken := fun _ _ s => (s, some e)
  useRememberToken := fun _ _ s => (s, some e)
  delRememberTokens := fun _ s => (s, some e)

/-- A storage collaborator whose consume succeeds but whose add fails with
`e` (used to exercise the persistence-failure path). -/
def addFailStorer (e : Err) : RememberingServerStorer Nat where
  addRememberToken := fun _ _ s => (s, some e)
  useRememberToken := fun _ _ s => (s, none)
  delRememberTokens := fun _ s => (s, none)

/-- Claim C4 — fail-closed infrastructure faults: when `UseRememberToken`
fails with an error other than token-not-found, `Authenticate` returns that
error unchanged; when replacement-token generation or persistence fails,
`Authenticate` returns the (wrapped) error, whose cause is the underlying
failure; in all three cases no session entry and no new remember cookie is
written. -/
theorem authenticate_fail_closed {σ : Type} (sha : GoStr → GoStr)
    (st : RememberingServerStorer σ) (nonce : Except Err GoStr) (store : σ)
    (ck raw : GoStr) (idx : Nat)
    (hdec : base64Decode urlAlphabet ck = some raw)
    (hidx : indexOfByte sepByte raw = some idx) :
    (∀ s1 e, st.useRememberToken (raw.take idx)
        (base64Encode stdAlphabet (sha raw)) store = (s1, some e) →
      e ≠ Err.tokenNotFound →
      Authenticate sha st (some ck) nonce store =
        ⟨[.useToken (raw.take idx) (base64Encode stdAlphabet (sha raw))], s1, some e⟩ ∧
      NoIdentityEstablished (Authenticate sha st (some ck) nonce store).events) ∧
    (∀ s1 e, st.useRememberToken (raw.take idx)
        (base64Encode stdAlphabet (sha raw)) store = (s1, none) →
      nonce = .error e →
      Authenticate sha st (some ck) nonce store =
        ⟨[.useToken (raw.take idx) (base64Encode stdAlphabet (sha raw))], s1,
          some (.wrap "failed to create remember me nonce" e)⟩ ∧
      (Authenticate sha st (some ck) nonce store).err.map Err.cause = some e.cause ∧
      NoIdentityEstablished (Authenticate sha st (some ck) nonce store).events) ∧
    (∀ s1 s2 e n, st.useRememberToken (raw.take idx)
        (base64Encode stdAlphabet (sha raw)) store = (s1, none) →
      nonce = .ok n →
      st.addRememberToken (raw.take idx)
        (base64Encode stdAlphabet (sha (raw.take idx ++ sepByte :: n))) s1 =
          (s2, some e) →
      Authenticate sha st (some ck) nonce store =
        ⟨[.useToken (raw.take idx) (base64Encode stdAlphabet (sha raw)),
          .addToken (raw.take idx)
            (base64Encode stdAlphabet (sha (raw.take idx ++ sepByte :: n)))],
          s2, some (.wrap "failed to save me token" e)⟩ ∧
      (Authenticate sha st (some ck) nonce store).err.map Err.cause = some e.cause ∧
      NoIdentityEstablished (Authenticate sha st (some ck) nonce store).events) := by
  refine ⟨?_, ?_, ?_⟩
  · intro s1 e huse hne
    have h := Authenticate_useErr sha st nonce store ck raw idx s1 e hdec hidx huse hne
    exact ⟨h, by rw [h]; exact ⟨fun k v => by simp, fun nm v => by simp⟩⟩
  · intro s1 e huse hnonce
    have h := Authenticate_genErr sha st nonce store ck raw idx s1 e hdec hidx huse hnonce
    refine ⟨h, by rw [h]; simp [Err.cause], ?_⟩
    rw [h]
    exact ⟨fun k v => by simp, fun nm v => by simp⟩
  · intro s1 s2 e n huse hnonce hadd
    have h := Authenticate_addErr sha st nonce store ck raw idx s1 s2 e n
      hdec hidx huse hnonce hadd
    refine ⟨h, by rw [h]; simp [Err.cause], ?_⟩
    rw [h]
    exact ⟨fun k v => by simp, fun nm v => by simp⟩

/-- Claim C4 witness: a failing consume, a failing random source, and a
failing persistence, each on the token for pid `"A"`. -/
theorem authenticate_fail_closed_witness :
    (Authenticate (fun l => l) (failStorer (.storage 5))
        (some (base64Encode urlAlphabet [65, 59])) (.ok []) 0 =
      ⟨[.useToken [65] (base64Encode stdAlphabet ((fun l : GoStr => l) [65, 59]))],
        0, some (.storage 5)⟩) ∧
    (Authenticate (fun l => l) (addFailStorer (.storage 7))
        (some (base64Encode urlAlphabet [65, 59])) (.error (.randFail 1)) 0 =
      ⟨[.useToken [65] (base64Encode stdAlphabet ((fun l : GoStr => l) [65, 59]))],
        0, some (.wrap "failed to create remember me nonce" (.randFail 1))⟩) ∧
    (Authenticate (fun l => l) (addFailStorer (.storage 7))
        (some (base64Encode urlAlphabet [65, 59])) (.ok [9]) 0 =
      ⟨[.useToken [65] (base64Encode stdAlphabet ((fun l : GoStr => l) [65, 59])),
        .addToken [65]
          (base64Encode stdAlphabet ((fun l : GoStr => l) ([65, 59].take 1 ++ sepByte :: [9])))],
        0, some (.wrap "failed to save me token" (.storage 7))⟩) := by
  have h1 := (authenticate_fail_closed (fun l => l) (failStorer (.storage 5)) (.ok []) 0
    (base64Encode urlAlphabet [65, 59]) [65, 59] 1 (by decide) (by decide)).1
    0 (.storage 5) rfl (by decide)
  have h2 := (authenticate_fail_closed (fun l => l) (addFailStorer (.storage 7))
    (.error (.randFail 1)) 0
    (base64Encode urlAlphabet [65, 59]) [65, 59] 1 (by decide) (by decide)).2.1
    0 (.randFail 1) rfl rfl
  have h3 := (authenticate_fail_closed (fun l => l) (addFailStorer (.storage 7))
    (.ok [9]) 0
    (base64Encode urlAlphabet [65, 59]) [65, 59] 1 (by decide) (by decide)).2.2
    0 0 (.storage 7) [9] rfl rfl rfl
  exact ⟨by simpa using h1.1, by simpa using h2.1, by simpa using h3.1⟩

/-- Claim C5 — the remember middleware invokes `Authenticate` exactly when
neither a cached pid nor a cached user is in the request context; an
`Authenticate` error is logged, never returned, and the next handler is
invoked on every request. -/
theorem middleware_gate {σ U : Type} (sha : GoStr → GoStr)
    (st : RememberingServerStorer σ) (cookie : Option GoStr)
    (nonce : Except Err GoStr) (ctxPid : Option GoStr) (ctxUser : Option U)
    (store : σ) :
    (Middleware sha st cookie nonce ctxPid ctxUser store).authCalled =
      (ctxPid.isNone && ctxUser.isNone) ∧
    (Middleware sha st cookie nonce ctxPid ctxUser store).nextCalled = true ∧
    (Middleware sha st cookie nonce ctxPid ctxUser store).loggedErr =
      (if ctxPid.isNone && ctxUser.isNone then
        (Authenticate sha st cookie nonce store).err else none) ∧
    (Middleware sha st cookie nonce ctxPid ctxUser store).events =
      (if ctxPid.isNone && ctxUser.isNone then
        (Authenticate sha st cookie nonce store).events else []) ∧
    (Middleware sha st cookie nonce ctxPid ctxUser store).store =
      (if ctxPid.isNone && ctxUser.isNone then
        (Authenticate sha st cookie nonce store).store else store) := by
  by_cases h : (ctxPid.isNone && ctxUser.isNone : Bool) = true <;>
    simp [Middleware, h]

/-- Claim C1 — successful remember-cookie authentication with the
spec-modelled store: the consumed token is removed, a replacement hash is
persisted, the session is marked half-authenticated for the pid, the old
cookie is deleted and the new token written, nil is returned; afterwards
the old token is unusable and exactly one new token exists for the pid,
with a different hash. -/
theorem authenticate_rotation (sha : GoStr → GoStr) (ck raw nonce2 : GoStr)
    (idx : Nat) (store : MemStore)
    (hdec : base64Decode urlAlphabet ck = some raw)
    (hidx : indexOfByte sepByte raw = some idx)
    (hcount : store.count (raw.take idx, base64Encode stdAlphabet (sha raw)) = 1)
    (hvold : ∀ b ∈ sha raw, b < 256)
    (hvnew : ∀ b ∈ sha (raw.take idx ++ sepByte :: nonce2), b < 256)
    (hshane : sha (raw.take idx ++ sepByte :: nonce2) ≠ sha raw)
    (hfresh : (raw.take idx,
      base64Encode stdAlphabet (sha (raw.take idx ++ sepByte :: nonce2))) ∉ store) :
    Authenticate sha memStorer (some ck) (.ok nonce2) store =
      ⟨[.useToken (raw.take idx) (base64Encode stdAlphabet (sha raw)),
        .addToken (raw.take idx)
          (base64Encode stdAlphabet (sha (raw.take idx ++ sepByte :: nonce2))),
        .putSession SessionKey (raw.take idx),
        .putSession SessionHalfAuthKey trueStr,
        .delCookie CookieRemember,
        .putCookie CookieRemember
          (base64Encode urlAlphabet (raw.take idx ++ sepByte :: nonce2))],
        store.erase (raw.take idx, base64Encode stdAlphabet (sha raw)) ++
          [(raw.take idx,
            base64Encode stdAlphabet (sha (raw.take idx ++ sepByte :: nonce2)))],
        none⟩ ∧
    base64Encode stdAlphabet (sha (raw.take idx ++ sepByte :: nonce2)) ≠
      base64Encode stdAlphabet (sha raw) ∧
    (Authenticate sha memStorer (some ck) (.ok nonce2) store).store.count
      (raw.take idx, base64Encode stdAlphabet (sha raw)) = 0 ∧
    (Authenticate sha memStorer (some ck) (.ok nonce2) store).store.count
      (raw.take idx,
        base64Encode stdAlphabet (sha (raw.take idx ++ sepByte :: nonce2))) = 1 ∧
    (memStorer.useRememberToken (raw.take idx) (base64Encode stdAlphabet (sha raw))
      (Authenticate sha memStorer (some ck) (.ok nonce2) store).store).2 =
        some Err.tokenNotFound := by
  have hhashne : base64Encode stdAlphabet (sha (raw.take idx ++ sepByte :: nonce2)) ≠
      base64Encode stdAlphabet (sha raw) := fun heq =>
    hshane (base64Encode_inj stdAlphabet goodAlpha_std _ _ hvnew hvold heq)
  have hpairne : (raw.take idx,
      base64Encode stdAlphabet (sha (raw.take idx ++ sepByte :: nonce2))) ≠
      (raw.take idx, base64Encode stdAlphabet (sha raw)) := by
    intro hp
    exact hhashne (congrArg Prod.snd hp)
  have hmem : (raw.take idx, base64Encode stdAlphabet (sha raw)) ∈ store :=
    List.count_pos_iff.mp (by omega)
  have huse : memStorer.useRememberToken (raw.take idx)
      (base64Encode stdAlphabet (sha raw)) store =
      (store.erase (raw.take idx, base64Encode stdAlphabet (sha raw)), none) := by
    simp [memStorer, hmem]
  have hmain := Authenticate_ok sha memStorer (.ok nonce2) store ck raw idx
    (store.erase (raw.take idx, base64Encode stdAlphabet (sha raw)))
    (store.erase (raw.take idx, base64Encode stdAlphabet (sha raw)) ++
      [(raw.take idx,
        base64Encode stdAlphabet (sha (raw.take idx ++ sepByte :: nonce2)))])
    nonce2 hdec hidx huse rfl rfl
  have hcount0 : (store.erase (raw.take idx, base64Encode stdAlphabet (sha raw)) ++
      [(raw.take idx,
        base64Encode stdAlphabet (sha (raw.take idx ++ sepByte :: nonce2)))]).count
      (raw.take idx, base64Encode stdAlphabet (sha raw)) = 0 := by
    rw [List.count_append, List.count_erase_self]
    have h2 : List.count (raw.take idx, base64Encode stdAlphabet (sha raw))
        [(raw.take idx,
          base64Encode stdAlphabet (sha (raw.take idx ++ sepByte :: nonce2)))] = 0 := by
      simp [List.count_singleton, hpairne]
    omega
  have hcount1 : (store.erase (raw.take idx, base64Encode stdAlphabet (sha raw)) ++
      [(raw.take idx,
        base64Encode stdAlphabet (sha (raw.take idx ++ sepByte :: nonce2)))]).count
      (raw.take idx,
        base64Encode stdAlphabet (sha (raw.take idx ++ sepByte :: nonce2))) = 1 := by
    rw [List.count_append, List.count_erase_of_ne hpairne,
      List.count_eq_zero.mpr hfresh]
    simp [List.count_singleton]
  refine ⟨hmain, hhashne, ?_, ?_, ?_⟩
  · rw [hmain]
    exact hcount0
  · rw [hmain]
    exact hcount1
  · rw [hmain]
    have hnot : (raw.take idx, base64Encode stdAlphabet (sha raw)) ∉
        store.erase (raw.take idx, base64Encode stdAlphabet (sha raw)) ++
          [(raw.take idx,
            base64Encode stdAlphabet (sha (raw.take idx ++ sepByte :: nonce2)))] :=
      List.count_eq_zero.mp hcount0
    simp [memStorer, hnot]

/-- Claim C1 witness: pid `"A"`, one stored token, rotation at a fresh
nonce; afterwards the old hash is gone and the new hash is stored once. -/
theorem authenticate_rotation_witness :
    (Authenticate (fun l => l) memStorer (some (base64Encode urlAlphabet [65, 59, 7]))
        (.ok [8]) [([65], base64Encode stdAlphabet [65, 59, 7])]).store.count
      ([65, 59, 7].take 1, base64Encode stdAlphabet ((fun l : GoStr => l) [65, 59, 7])) = 0 ∧
    (Authenticate (fun l => l) memStorer (some (base64Encode urlAlphabet [65, 59, 7]))
        (.ok [8]) [([65], base64Encode stdAlphabet [65, 59, 7])]).store.count
      ([65, 59, 7].take 1,
        base64Encode stdAlphabet
          ((fun l : GoStr => l) ([65, 59, 7].take 1 ++ sepByte :: [8]))) = 1 :=
  ⟨(authenticate_rotation (fun l => l) (base64Encode urlAlphabet [65, 59, 7]) [65, 59, 7]
      [8] 1 [([65], base64Encode stdAlphabet [65, 59, 7])] (by decide) (by decide)
      (by decide) (by decide) (by decide) (by decide) (by decide)).2.2.1,
    (authenticate_rotation (fun l => l) (base64Encode urlAlphabet [65, 59, 7]) [65, 59, 7]
      [8] 1 [([65], base64Encode stdAlphabet [65, 59, 7])] (by decide) (by decide)
      (by decide) (by decide) (by decide) (by decide) (by decide)).2.2.2.1⟩

/-- Claim C6 — identity-cache behaviour of `LoadCurrentUser`: an attached
user is returned with no storage load, and resolving twice while threading
the rebound request performs exactly one storage load in total. -/
theorem loadCurrentUser_cache {U : Type} (load : GoStr → Except Err U)
    (ctx : ReqCtx U) (sess : Option GoStr) :
    (∀ u, ctx.user = some u →
      LoadCurrentUser load ctx sess = ⟨some u, ctx, 0, none⟩) ∧
    (∀ u, ctx.user = none → (LoadCurrentUser load ctx sess).user = some u →
      (LoadCurrentUser load ctx sess).loads = 1 ∧
      LoadCurrentUser load (LoadCurrentUser load ctx sess).ctx sess =
        ⟨some u, (LoadCurrentUser load ctx sess).ctx, 0, none⟩ ∧
      (LoadCurrentUser load ctx sess).loads +
        (LoadCurrentUser load (LoadCurrentUser load ctx sess).ctx sess).loads = 1) := by
  constructor
  · intro u hu
    simp [LoadCurrentUser, hu]
  · intro u hnone huser
    by_cases hpid : (LoadCurrentUserID ctx sess).1 = []
    · exfalso
      simp [LoadCurrentUser, hnone, hpid] at huser
    · rcases hload : load (LoadCurrentUserID ctx sess).1 with e | u'
      · exfalso
        simp [LoadCurrentUser, hnone, hpid, hload] at huser
      · have hres : LoadCurrentUser load ctx sess =
            ⟨some u', { (LoadCurrentUserID ctx sess).2 with user := some u' }, 1, none⟩ := by
          simp [LoadCurrentUser, hnone, hpid, hload]
        have huu : u' = u := by
          rw [hres] at huser
          exact Option.some_inj.mp huser
        subst huu
        refine ⟨by rw [hres], ?_, ?_⟩
        · rw [hres]
          simp [LoadCurrentUser]
        · rw [hres]
          simp [LoadCurrentUser]

/-- Claim C6 witness: an anonymous context with a session pid; the first
resolution loads once, the second (on the rebound context) loads nothing. -/
theorem loadCurrentUser_cache_witness :
    (LoadCurrentUser (fun p => Except.ok p) (⟨none, none⟩ : ReqCtx GoStr)
        (some [120])).loads +
      (LoadCurrentUser (fun p => Except.ok p)
        (LoadCurrentUser (fun p => Except.ok p) (⟨none, none⟩ : ReqCtx GoStr)
          (some [120])).ctx
        (some [120])).loads = 1 :=
  ((loadCurrentUser_cache (fun p => Except.ok p) ⟨none, none⟩ (some [120])).2
    [120] rfl rfl).2.2

/-- Claim C7 counterexample — a request on which no current user resolves
(no cached user, no session pid): `AfterPasswordReset` returns early with
`ErrUserNotFound`, deleting no cookie and leaving the stored token in
place, contradicting the claim's unconditional "for every request ...
deletes the remember cookie [and] invokes ... delete-all". -/
theorem afterPasswordReset_counterexample :
    AfterPasswordReset (fun u : GoStr => u) (fun _ => .error (.storage 0)) memStorer
        (⟨none, none⟩ : ReqCtx GoStr) none [([65], [66])] =
      ⟨[], [([65], [66])], false, some .userNotFound⟩ ∧
    Event.delCookie CookieRemember ∉
      (AfterPasswordReset (fun u : GoStr => u) (fun _ => .error (.storage 0)) memStorer
        (⟨none, none⟩ : ReqCtx GoStr) none [([65], [66])]).events ∧
    (AfterPasswordReset (fun u : GoStr => u) (fun _ => .error (.storage 0)) memStorer
        (⟨none, none⟩ : ReqCtx GoStr) none [([65], [66])]).store = [([65], [66])] := by
  refine ⟨rfl, ?_, rfl⟩
  decide

/-- Claim C7 (amended) — when the current user resolves, `AfterPasswordReset`
deletes the remember cookie, invokes delete-all-remember-tokens for the
user's pid and returns `handled = false` with that deletion's error; when
resolution fails it returns `handled = false` with the resolution error and
touches neither cookie nor storage; `handled` is false on every path; and
the spec-modelled store really revokes every token of the pid. -/
theorem afterPasswordReset_spec {σ U : Type} (getPID : U → GoStr)
    (load : GoStr → Except Err U) (st : RememberingServerStorer σ)
    (ctx : ReqCtx U) (sess : Option GoStr) (store : σ) :
    (∀ u, CurrentUser load ctx sess = .ok u →
      AfterPasswordReset getPID load st ctx sess store =
        ⟨[.delCookie CookieRemember, .delTokens (getPID u)],
          (st.delRememberTokens (getPID u) store).1, false,
          (st.delRememberTokens (getPID u) store).2⟩) ∧
    (∀ e, CurrentUser load ctx sess = .error e →
      AfterPasswordReset getPID load st ctx sess store = ⟨[], store, false, some e⟩) ∧
    (AfterPasswordReset getPID load st ctx sess store).handled = false ∧
    (∀ (ms : MemStore) (pid : GoStr),
      (memStorer.delRememberTokens pid ms).1.filter (fun t => t.1 = pid) = [] ∧
      (memStorer.delRememberTokens pid ms).2 = none) := by
  refine ⟨?_, ?_, ?_, ?_⟩
  · intro u hu
    simp [AfterPasswordReset, hu]
  · intro e he
    simp [AfterPasswordReset, he]
  · rcases hcu : CurrentUser load ctx sess with e | u <;>
      simp [AfterPasswordReset, hcu]
  · intro ms pid
    refine ⟨?_, rfl⟩
    rw [List.eq_nil_iff_forall_not_mem]
    intro t ht
    have h1 := List.mem_filter.mp ht
    have h2 := List.mem_filter.mp h1.1
    simp [memStorer] at h1 h2
    rcases h1 with ⟨⟨_, hne⟩, heq⟩
    exact hne heq

/-- Claim C7 witness: a resolvable user with three stored tokens, two of
them for that pid; the hook deletes the cookie, revokes both and returns
`handled = false` with a nil error. -/
theorem afterPasswordReset_spec_witness :
    AfterPasswordReset (fun u : GoStr => u) (fun p => Except.ok p) memStorer
        (⟨none, some [65]⟩ : ReqCtx GoStr) none
        [([65], [66]), ([67], [68]), ([65], [70])] =
      ⟨[.delCookie CookieRemember, .delTokens [65]], [([67], [68])], false, none⟩ := by
  have h := (afterPasswordReset_spec (fun u : GoStr => u) (fun p => Except.ok p)
    memStorer ⟨none, some [65]⟩ none
    [([65], [66]), ([67], [68]), ([65], [70])]).1 [65] rfl
  simpa using h

/-- Claim C8 — `RememberAfterAuth` is a pure no-op returning
`(handled = false, nil)` when the remember-me context value is absent or is
the boolean `false`; and on every execution path the returned handled flag
is false. -/
theorem rememberAfterAuth_gate {σ U : Type} (sha : GoStr → GoStr)
    (getPID : U → GoStr) (load : GoStr → Except Err U)
    (st : RememberingServerStorer σ) (ctx : ReqCtx U) (sess : Option GoStr)
    (nonce : Except Err GoStr) (store : σ) :
    (RememberAfterAuth sha getPID load st ctx sess none nonce store =
      .ret [] store false none) ∧
    (RememberAfterAuth sha getPID load st ctx sess (some (.boolVal false)) nonce store =
      .ret [] store false none) ∧
    (∀ rmVal, (RememberAfterAuth sha getPID load st ctx sess rmVal nonce store).handledOf =
      false) := by
  refine ⟨rfl, rfl, ?_⟩
  intro rmVal
  rcases rmVal with _ | v
  · rfl
  · by_cases hv : isFalseBool v = true
    · simp [RememberAfterAuth, hv, RAAResult.handledOf]
    · rcases hcu : CurrentUser load ctx sess with e | u
      · simp [RememberAfterAuth, hv, hcu, RAAResult.handledOf]
      · rcases hgt : GenerateToken sha (getPID u) nonce with e | ht
        · simp [RememberAfterAuth, hv, hcu, hgt, RAAResult.handledOf]
        · rcases hadd : (st.addRememberToken (getPID u) ht.1 store).2 with _ | e <;>
            simp [RememberAfterAuth, hv, hcu, hgt, hadd, RAAResult.handledOf]

/-- Claim C10 — only a nil context value or the boolean `false` suppresses
remembering: any non-boolean value under the remember-me key (for example
the string `"false"`) causes a token to be generated, its hash persisted and
the cookie written. -/
theorem rememberAfterAuth_nonbool {σ U : Type} (sha : GoStr → GoStr)
    (getPID : U → GoStr) (load : GoStr → Except Err U)
    (st : RememberingServerStorer σ) (ctx : ReqCtx U) (sess : Option GoStr)
    (store : σ) (v : CtxVal) (u : U) (n : GoStr) (s2 : σ)
    (hv : ∀ b, v ≠ .boolVal b)
    (hu : CurrentUser load ctx sess = .ok u)
    (hadd : st.addRememberToken (getPID u)
      (base64Encode stdAlphabet (sha (getPID u ++ sepByte :: n))) store = (s2, none)) :
    RememberAfterAuth sha getPID load st ctx sess (some v) (.ok n) store =
      .ret [.addToken (getPID u)
          (base64Encode stdAlphabet (sha (getPID u ++ sepByte :: n))),
        .putCookie CookieRemember (base64Encode urlAlphabet (getPID u ++ sepByte :: n))]
        s2 false none := by
  have hfb : isFalseBool v = false := by
    cases v with
    | boolVal b => exact absurd rfl (hv b)
    | strVal s => rfl
    | otherVal k => rfl
  simp [RememberAfterAuth, hfb, hu, GenerateToken, hadd]

/-- Claim C10 witness: the context value is the string `"false"`; a token is
nevertheless issued and stored for pid `"u"`. -/
theorem rememberAfterAuth_nonbool_witness :
    RememberAfterAuth (fun l => l) (fun u : GoStr => u) (fun p => Except.ok p) memStorer
        (⟨none, some [117]⟩ : ReqCtx GoStr) none
        (some (.strVal [102, 97, 108, 115, 101])) (.ok [0]) [] =
      .ret [.addToken [117] (base64Encode stdAlphabet ([117] ++ sepByte :: [0])),
        .putCookie CookieRemember (base64Encode urlAlphabet ([117] ++ sepByte :: [0]))]
        [([117], base64Encode stdAlphabet ([117] ++ sepByte :: [0]))] false none := by
  have h := rememberAfterAuth_nonbool (fun l => l) (fun u : GoStr => u)
    (fun p => Except.ok p) memStorer (⟨none, some [117]⟩ : ReqCtx GoStr) none
    [] (.strVal [102, 97, 108, 115, 101]) [117] [0]
    [([117], base64Encode stdAlphabet ([117] ++ sepByte :: [0]))]
    (fun b => by simp) rfl rfl
  simpa using h

end Authboss
